import Mathlib

/-!
A shallow embedding of the connection-handling core of the ferrous-socks
SOCKS5 proxy (src/main.rs, src/stats.rs, src/util.rs) and proofs about it.

Byte streams are modelled as `List Nat` (each element a byte value); the
socket writes performed by a function are returned explicitly as an output
byte list.  Machine integers are `Nat` with `% 2 ^ 64` where u64 overflow
matters.  Wall-clock instants (`SystemTime`) are rationals: seconds since
the UNIX epoch (negative = before the epoch), so that `Duration.as_secs_f64`
is exact subtraction.
-/

/-- `std::net::IpAddr`: V4 carries 4 octets, V6 carries 16 octets. -/
inductive IpAddr
  | v4 (octets : List Nat)
  | v6 (octets : List Nat)
deriving DecidableEq, Repr

/-- `Address` from main.rs: either an IP address or a domain name.
The Rust `DomainName` carries a `String`; we carry the raw UTF-8 bytes
read from the wire (UTF-8 validity of a parsed request is what claim C8
is about, so it is tracked by `read_request` rather than assumed). -/
inductive Address
  | ipAddr (i : IpAddr)
  | domainName (name : List Nat)
deriving DecidableEq, Repr

/-- `Request` from main.rs: destination address and port. -/
structure Request where
  address : Address
  dport : Nat
deriving DecidableEq, Repr

/-- `Config` as the session worker sees it: only the pure policy
function `is_permitted(ip, port) -> bool`. -/
structure Config where
  is_permitted : IpAddr → Nat → Bool

/-- `Reply` from main.rs: the non-success SOCKS5 reply codes the server
can write. -/
inductive Reply
  | socksFailure
  | connectionNotAllowed
  | networkUnreachable
  | connectionRefused
  | ttlExpired
  | commandNotSupported
  | addressNotSupported
deriving DecidableEq, Repr

/-- `Reply::as_u8` from main.rs. -/
def Reply.as_u8 : Reply → Nat
  | .socksFailure => 0x01
  | .connectionNotAllowed => 0x02
  | .networkUnreachable => 0x03
  | .connectionRefused => 0x04
  | .ttlExpired => 0x05
  | .commandNotSupported => 0x07
  | .addressNotSupported => 0x08

/-- `Reply::write_error` from main.rs: the 10-byte failure frame written
to the client. -/
def Reply.write_error (r : Reply) : List Nat :=
  [0x05, r.as_u8, 0x00, 0x01, 0x00, 0x00, 0x00, 0x00, 0x00, 0x00]

/-- `handshake_auth` from main.rs, as a function of the client's byte
stream.  Returns `none` when a `read_exact` would fail (not enough input),
otherwise `some (output bytes written, handshake success flag)`. -/
def handshake_auth (input : List Nat) : Option (List Nat × Bool) :=
  match input with
  | ver :: num_auths :: rest =>
    if ver ≠ 0x05 then some ([0x05, 0xff], false)
    else if num_auths > 0xfe then some ([0x05, 0xff], false)
    else if rest.length < num_auths then none
    else
      let auths := rest.take num_auths
      if auths.any (fun i => i == 0) then some ([0x05, 0x00], true)
      else some ([0x05, 0xff], false)
  | _ => none

/-- A UTF-8 continuation byte (`0x80 ..= 0xBF`). -/
def utf8Cont (b : Nat) : Bool :=
  decide (0x80 ≤ b) && decide (b ≤ 0xbf)

/-- Validity of a byte sequence as UTF-8, exactly the check performed by
Rust's `String::from_utf8` (core's `run_utf8_validation`). -/
def utf8Valid : List Nat → Bool
  | [] => true
  | b :: rest =>
    if b ≤ 0x7f then utf8Valid rest
    else if 0xc2 ≤ b ∧ b ≤ 0xdf then
      match rest with
      | c :: r => utf8Cont c && utf8Valid r
      | [] => false
    else if b = 0xe0 then
      match rest with
      | c :: d :: r => (decide (0xa0 ≤ c) && decide (c ≤ 0xbf)) && utf8Cont d && utf8Valid r
      | _ => false
    else if (0xe1 ≤ b ∧ b ≤ 0xec) ∨ b = 0xee ∨ b = 0xef then
      match rest with
      | c :: d :: r => utf8Cont c && utf8Cont d && utf8Valid r
      | _ => false
    else if b = 0xed then
      match rest with
      | c :: d :: r => (decide (0x80 ≤ c) && decide (c ≤ 0x9f)) && utf8Cont d && utf8Valid r
      | _ => false
    else if b = 0xf0 then
      match rest with
      | c :: d :: e :: r =>
        (decide (0x90 ≤ c) && decide (c ≤ 0xbf)) && utf8Cont d && utf8Cont e && utf8Valid r
      | _ => false
    else if 0xf1 ≤ b ∧ b ≤ 0xf3 then
      match rest with
      | c :: d :: e :: r => utf8Cont c && utf8Cont d && utf8Cont e && utf8Valid r
      | _ => false
    else if b = 0xf4 then
      match rest with
      | c :: d :: e :: r =>
        (decide (0x80 ≤ c) && decide (c ≤ 0x8f)) && utf8Cont d && utf8Cont e && utf8Valid r
      | _ => false
    else false

/-- How a call to `read_request` ends. -/
inductive ReadRequestOutcome
  | ioError                   -- a read_exact failed: Err(IoError)
  | badAddressType            -- Err(RequestError::BadAddressType)
  | panicked                  -- String::from_utf8(..).unwrap() aborts
  | rejected (r : Reply)      -- Ok(None) after writing the failure reply r
  | request (req : Request)   -- Ok(Some req)
deriving DecidableEq, Repr

/-- Result of the `ATYP` match inside `read_request`. -/
inductive ReadAddressResult
  | ioError
  | badAddressType
  | panicked
  | ok (a : Address) (rest : List Nat)
deriving DecidableEq, Repr

/-- The `match fixed_buf[3]` arm of `read_request`: parse the DST.ADDR
field given the ATYP byte and the remaining input. -/
def readAddress (atyp : Nat) (rest : List Nat) : ReadAddressResult :=
  if atyp = 0x01 then
    match rest with
    | a :: b :: c :: d :: r => .ok (.ipAddr (.v4 [a, b, c, d])) r
    | _ => .ioError
  else if atyp = 0x03 then
    match rest with
    | len :: r =>
      if r.length < len then .ioError
      else if utf8Valid (r.take len) then .ok (.domainName (r.take len)) (r.drop len)
      else .panicked
    | [] => .ioError
  else if atyp = 0x04 then
    if rest.length < 16 then .ioError
    else .ok (.ipAddr (.v6 (rest.take 16))) (rest.drop 16)
  else .badAddressType

/-- `read_request` from main.rs over the client byte stream: returns the
bytes written back to the client and how the call ended.  The destination
port is read big-endian (`NetworkEndian::read_u16`). -/
def read_request (input : List Nat) : List Nat × ReadRequestOutcome :=
  match input with
  | ver :: cmd :: _rsv :: atyp :: rest =>
    if ver ≠ 0x05 then (Reply.socksFailure.write_error, .rejected .socksFailure)
    else if cmd ≠ 0x01 then
      (Reply.commandNotSupported.write_error, .rejected .commandNotSupported)
    else
      match readAddress atyp rest with
      | .ioError => ([], .ioError)
      | .badAddressType => ([], .badAddressType)
      | .panicked => ([], .panicked)
      | .ok addr rest1 =>
        match rest1 with
        | p1 :: p2 :: _ => ([], .request ⟨addr, p1 * 256 + p2⟩)
        | _ => ([], .ioError)
  | _ => ([], .ioError)

/-- The `Address::DomainName` arm of `Request::connect`: walk the
resolver's addresses in order; the first address the policy permits is
the one `TcpStream::connect` is attempted on (a failed connect
propagates out of the loop via `?`).  The environment parameter
`connOk a p` says whether a connect to `(a, p)` would succeed.  Returns
the list of `(ip, port)` pairs a connect was attempted on, and the value
of `Request::connect`: `Except` io-error of `Option` connection (the
connection recorded as the address it reached). -/
def connectDomain (config : Config) (dport : Nat) (connOk : IpAddr → Nat → Bool) :
    List IpAddr → List (IpAddr × Nat) × Except Unit (Option (IpAddr × Nat))
  | [] => ([], .ok none)
  | a :: rest =>
    if config.is_permitted a dport then
      if connOk a dport then ([(a, dport)], .ok (some (a, dport)))
      else ([(a, dport)], .error ())
    else connectDomain config dport connOk rest

/-- `Request::connect` from main.rs.  `resolved` is what
`tokio::net::lookup_host` returns for the domain name (an io-error or an
ordered address list); `connOk` is the connect-success environment as in
`connectDomain`. -/
def Request.connect (req : Request) (config : Config)
    (resolved : Except Unit (List IpAddr)) (connOk : IpAddr → Nat → Bool) :
    List (IpAddr × Nat) × Except Unit (Option (IpAddr × Nat)) :=
  match req.address with
  | .ipAddr i =>
    if config.is_permitted i req.dport then
      if connOk i req.dport then ([(i, req.dport)], .ok (some (i, req.dport)))
      else ([(i, req.dport)], .error ())
    else ([], .ok none)
  | .domainName _ =>
    match resolved with
    | .error _ => ([], .error ())
    | .ok addrs => connectDomain config req.dport connOk addrs

/-- The `match` on the connect result in `handle_one_connection`
(main.rs lines 185-206), restricted to the non-timeout cases: the failure
reply written for each shape of `Request::connect`'s result (`none` means
the success path continues). -/
def connect_result_reply : Except Unit (Option (IpAddr × Nat)) → Option Reply
  | .ok (some _) => none
  | .ok none => some .connectionNotAllowed
  | .error _ => some .networkUnreachable

/-- `std::net::SocketAddr`: an IP (4 or 16 octets) plus a port. -/
inductive SocketAddr
  | v4 (ip : List Nat) (port : Nat)
  | v6 (ip : List Nat) (port : Nat)
deriving DecidableEq, Repr

/-- The success-reply bytes written by `handle_one_connection`
(main.rs lines 207-219) for the outbound socket's local endpoint
`local_end`: the fixed header `[0x05, 0x00, 0x01, ATYP]`, then the IP
octets, then the port big-endian (`NetworkEndian::write_u16`). -/
def success_reply : SocketAddr → List Nat
  | .v4 ip port => [0x05, 0x00, 0x01, 0x01] ++ ip ++ [port / 256 % 256, port % 256]
  | .v6 ip port => [0x05, 0x00, 0x01, 0x04] ++ ip ++ [port / 256 % 256, port % 256]

/-- `Session` from stats.rs.  `start_time` is a wall-clock instant,
modelled as rational seconds since the UNIX epoch. -/
structure Session where
  source_address : SocketAddr
  request : Option Request
  start_time : ℚ
deriving DecidableEq, Repr

/-- `Session::new` from stats.rs (`start_time` is `SystemTime::now()`,
passed in as `now`). -/
def Session.new (source_address : SocketAddr) (now : ℚ) : Session :=
  ⟨source_address, none, now⟩

/-- u64 modulus: the atomics in `Stats` wrap at `2 ^ 64`
(the literal 18446744073709551616). -/
def U64MOD : Nat := 18446744073709551616

/-- `HashMap::insert` on an association list: replaces the value if the
key is present, otherwise appends a fresh entry. -/
def mapInsert (k : Nat) (v : Session) : List (Nat × Session) → List (Nat × Session)
  | [] => [(k, v)]
  | (k0, v0) :: rest => if k0 = k then (k, v) :: rest else (k0, v0) :: mapInsert k v rest

/-- `HashMap::remove` on an association list: drops the entry with key
`k` when present. -/
def mapRemove (k : Nat) : List (Nat × Session) → List (Nat × Session)
  | [] => []
  | (k0, v0) :: rest => if k0 = k then rest else (k0, v0) :: mapRemove k rest

/-- `Stats` from stats.rs: the counters, the request-id allocator and the
live-sessions map, with the `AtomicU64`s as plain `Nat`s wrapping at
`2 ^ 64` (a quiescent-state model: claims about it concern quiescent
points, where atomic interleaving is invisible). -/
structure Stats where
  handshake_failed : Nat
  handshake_success : Nat
  handshake_authenticated : Nat
  handshake_timeout : Nat
  session_success : Nat
  session_timeout : Nat
  in_flight : Nat
  next_request_id : Nat
  sessions : List (Nat × Session)
deriving DecidableEq, Repr

/-- `Stats::new` from stats.rs: zero counters, id allocator starting at
1, empty sessions map. -/
def Stats.new : Stats :=
  ⟨0, 0, 0, 0, 0, 0, 0, 1, []⟩

/-- `Stats::start_request` from stats.rs: bump `in_flight`, allocate the
next id (`fetch_add` returns the old value), insert a fresh `Session`;
returns the new state and the allocated id. -/
def Stats.start_request (st : Stats) (source_address : SocketAddr) (now : ℚ) :
    Stats × Nat :=
  let conn_id := st.next_request_id
  ({ st with
      in_flight := (st.in_flight + 1) % U64MOD
      next_request_id := (st.next_request_id + 1) % U64MOD
      sessions := mapInsert conn_id (Session.new source_address now) st.sessions },
   conn_id)

/-- `Stats::finish_request` from stats.rs: decrement `in_flight`
(`fetch_sub` wraps at zero) and remove the map entry for the id. -/
def Stats.finish_request (st : Stats) (request_id : Nat) : Stats :=
  { st with
      in_flight := (st.in_flight + (U64MOD - 1)) % U64MOD
      sessions := mapRemove request_id st.sessions }

/-- One registry call in an interleaving of session workers. -/
inductive StatsOp
  | start (source_address : SocketAddr) (now : ℚ)
  | finish (id : Nat)
deriving DecidableEq, Repr

/-- The state transition of one registry call. -/
def statsStep (st : Stats) : StatsOp → Stats
  | .start src t => (st.start_request src t).1
  | .finish id => st.finish_request id

/-- Run a sequence of registry calls from a state. -/
def Stats.run (st : Stats) (ops : List StatsOp) : Stats :=
  ops.foldl statsStep st

/-- Fields of the JSON object emitted by `serialize_system_time`:
`ts` is seconds since the UNIX epoch, `ago` is seconds since the
serialized instant, both `as_secs_f64` values modelled exactly as
rationals. -/
structure TimeFields where
  ts : ℚ
  ago : ℚ
deriving DecidableEq, Repr

/-- How `serialize_system_time` ends. -/
inductive SerializeTimeResult
  | panicElapsed        -- ts.elapsed().unwrap() fails: the instant is in the future
  | panicBeforeEpoch    -- duration_since(UNIX_EPOCH) errs: unimplemented!()
  | ok (fields : TimeFields)
deriving DecidableEq, Repr

/-- `serialize_system_time` from util.rs at wall-clock time `now` for the
instant `t` (both rational seconds since the UNIX epoch).  `elapsed()` is
unwrapped first, so an instant in the future aborts there; an instant
before the epoch then hits `unimplemented!()`; otherwise the emitted
object is `{ ts, ago }`. -/
def serialize_system_time (now t : ℚ) : SerializeTimeResult :=
  if now < t then .panicElapsed
  else if t < 0 then .panicBeforeEpoch
  else .ok ⟨t, now - t⟩


/-- C5: for every greeting, the two-byte reply is determined as: version
byte ≠ 0x05 or NMETHODS > 0xFE gives reply [0x05, 0xFF] and failure;
otherwise, if any offered method byte is 0x00 the reply is exactly
[0x05, 0x00] and the handshake succeeds, and if none is 0x00 the reply is
exactly [0x05, 0xFF] and the handshake fails. -/
theorem handshake_auth_reply_rule (ver n : Nat) (rest : List Nat) :
    ((ver ≠ 0x05 ∨ n > 0xfe) →
      handshake_auth (ver :: n :: rest) = some ([0x05, 0xff], false)) ∧
    (ver = 0x05 → n ≤ 0xfe → n ≤ rest.length →
      ((rest.take n).any (fun i => i == 0) = true →
        handshake_auth (ver :: n :: rest) = some ([0x05, 0x00], true)) ∧
      ((rest.take n).any (fun i => i == 0) = false →
        handshake_auth (ver :: n :: rest) = some ([0x05, 0xff], false))) := by
  constructor
  · rintro (h | h)
    · simp [handshake_auth, h]
    · by_cases hv : ver = 0x05
      · simp [handshake_auth, hv, h]
      · simp [handshake_auth, hv]
  · intro hv hn hlen
    constructor
    · intro hany
      simp [handshake_auth, hv, Nat.not_lt.mpr hn, Nat.not_lt.mpr hlen, hany]
    · intro hnone
      simp [handshake_auth, hv, Nat.not_lt.mpr hn, Nat.not_lt.mpr hlen, hnone]

/-- C5 witness: the theorem applied to the greeting [0x05, 0x01, 0x00]. -/
theorem handshake_auth_reply_rule_witness :
    handshake_auth [0x05, 0x01, 0x00] = some ([0x05, 0x00], true) :=
  ((handshake_auth_reply_rule 0x05 0x01 [0x00]).2 rfl (by decide) (by decide)).1 (by decide)

/-- C6: every failure reply the server can write is exactly the 10 bytes
[0x05, code, 0x00, 0x01, 0, 0, 0, 0, 0, 0] with a non-zero code. -/
theorem write_error_frame (r : Reply) :
    r.write_error = [0x05, r.as_u8, 0x00, 0x01, 0, 0, 0, 0, 0, 0] ∧
    r.write_error.length = 10 ∧ r.as_u8 ≠ 0 := by
  cases r <;> simp [Reply.write_error, Reply.as_u8]

/-- C7: a request frame with version 0x05, command 0x01 and an ATYP byte
outside {0x01, 0x03, 0x04} makes read_request return BadAddressType with
no bytes written to the client. -/
theorem read_request_bad_atyp (rsv atyp : Nat) (rest : List Nat)
    (h1 : atyp ≠ 0x01) (h3 : atyp ≠ 0x03) (h4 : atyp ≠ 0x04) :
    read_request (0x05 :: 0x01 :: rsv :: atyp :: rest) = ([], .badAddressType) := by
  simp [read_request, readAddress, h1, h3, h4]

/-- C7 witness: the theorem applied to the frame [0x05, 0x01, 0x00, 0x02]. -/
theorem read_request_bad_atyp_witness :
    read_request [0x05, 0x01, 0x00, 0x02] = ([], .badAddressType) :=
  read_request_bad_atyp 0x00 0x02 [] (by decide) (by decide) (by decide)

/-- C9: the greeting [0x05, 0x00] (NMETHODS = 0) makes handshake_auth
read zero method bytes, reply exactly [0x05, 0xFF], and report handshake
failure (rather than an io error, which would be `none`). -/
theorem handshake_auth_zero_methods :
    handshake_auth [0x05, 0x00] = some ([0x05, 0xff], false) := by decide

/-- C2 (code bug): on a successful connect with local endpoint
127.0.0.1:4242 the code writes the reply
[0x05, 0x00, 0x01, 0x01, 127, 0, 0, 1, 16, 146]: the reserved third byte
is 0x01, not the 0x00 the claim (and RFC 1928, and the code's own
Reply::write_error frames) require. -/
theorem success_reply_reserved_byte :
    success_reply (.v4 [127, 0, 0, 1] 4242)
      = [0x05, 0x00, 0x01, 0x01, 127, 0, 0, 1, 16, 146] ∧
    (success_reply (.v4 [127, 0, 0, 1] 4242))[2]? = some 0x01 ∧
    (success_reply (.v6 [0, 0, 0, 0, 0, 0, 0, 0, 0, 0, 0, 0, 0, 0, 0, 1] 4242))[2]?
      = some 0x01 := by decide

/-- C10: serialize_system_time aborts unless the instant lies between the
UNIX epoch and the current time (elapsed().unwrap() fails on a future
instant, unimplemented!() fires on a pre-epoch one), and under that
precondition it emits the object { ts := seconds since epoch,
ago := seconds since the instant }. -/
theorem serialize_system_time_spec (now t : ℚ) :
    ((∃ f, serialize_system_time now t = .ok f) ↔ 0 ≤ t ∧ t ≤ now) ∧
    (0 ≤ t → t ≤ now → serialize_system_time now t = .ok ⟨t, now - t⟩) := by
  unfold serialize_system_time
  rcases lt_or_ge now t with h1 | h1
  · rw [if_pos h1]
    constructor
    · constructor
      · rintro ⟨f, hf⟩
        simp at hf
      · rintro ⟨_, h2⟩
        exact absurd h1 (not_lt.mpr h2)
    · intro _ h2
      exact absurd h1 (not_lt.mpr h2)
  · rw [if_neg (not_lt.mpr h1)]
    rcases lt_or_ge t 0 with h2 | h2
    · rw [if_pos h2]
      constructor
      · constructor
        · rintro ⟨f, hf⟩
          simp at hf
        · rintro ⟨h0, _⟩
          exact absurd h2 (not_lt.mpr h0)
      · intro h0 _
        exact absurd h2 (not_lt.mpr h0)
    · rw [if_neg (not_lt.mpr h2)]
      exact ⟨⟨fun _ => ⟨h2, h1⟩, fun _ => ⟨_, rfl⟩⟩, fun _ _ => rfl⟩

/-- C10 witness: the theorem applied at now = 2, t = 2. -/
theorem serialize_system_time_spec_witness :
    serialize_system_time 2 2 = .ok ⟨2, 2 - 2⟩ :=
  (serialize_system_time_spec 2 2).2 zero_le_two (le_refl 2)

/-- Every connect attempt made by the domain arm is to a
policy-permitted (ip, port) pair. -/
lemma connectDomain_attempts_permitted (config : Config) (dport : Nat)
    (connOk : IpAddr → Nat → Bool) :
    ∀ addrs : List IpAddr, ∀ p ∈ (connectDomain config dport connOk addrs).1,
      config.is_permitted p.1 p.2 = true := by
  intro addrs
  induction addrs with
  | nil =>
    intro p hp
    simp [connectDomain] at hp
  | cons a rest ih =>
    intro p hp
    by_cases hperm : config.is_permitted a dport = true
    · have hatt : (connectDomain config dport connOk (a :: rest)).1 = [(a, dport)] := by
        by_cases hc : connOk a dport = true <;> simp [connectDomain, hperm, hc]
      rw [hatt] at hp
      simp at hp
      rw [hp]
      exact hperm
    · have hskip : connectDomain config dport connOk (a :: rest)
          = connectDomain config dport connOk rest := by
        simp [connectDomain, hperm]
      rw [hskip] at hp
      exact ih p hp

/-- C1: Request::connect only ever attempts a connect to a pair the
policy permitted, and a direct IP address the policy forbids makes no
attempt and yields Ok(None), which handle_one_connection answers with
the NotAllowed reply (code 0x02). -/
theorem connect_respects_policy (req : Request) (config : Config)
    (resolved : Except Unit (List IpAddr)) (connOk : IpAddr → Nat → Bool) :
    (∀ p ∈ (req.connect config resolved connOk).1, config.is_permitted p.1 p.2 = true) ∧
    (∀ i, req.address = .ipAddr i → config.is_permitted i req.dport = false →
      req.connect config resolved connOk = ([], .ok none) ∧
      connect_result_reply (req.connect config resolved connOk).2
        = some .connectionNotAllowed ∧
      Reply.connectionNotAllowed.as_u8 = 0x02) := by
  obtain ⟨addr, dport⟩ := req
  constructor
  · intro p hp
    cases addr with
    | ipAddr i =>
      by_cases hperm : config.is_permitted i dport = true
      · have hatt : (Request.connect ⟨.ipAddr i, dport⟩ config resolved connOk).1
            = [(i, dport)] := by
          by_cases hc : connOk i dport = true <;> simp [Request.connect, hperm, hc]
        rw [hatt] at hp
        simp at hp
        rw [hp]
        exact hperm
      · have : (Request.connect ⟨.ipAddr i, dport⟩ config resolved connOk).1 = [] := by
          simp [Request.connect, hperm]
        rw [this] at hp
        simp at hp
    | domainName d =>
      cases resolved with
      | error e =>
        simp [Request.connect] at hp
      | ok addrs =>
        have : (Request.connect ⟨.domainName d, dport⟩ config (.ok addrs) connOk)
            = connectDomain config dport connOk addrs := rfl
        rw [this] at hp
        exact connectDomain_attempts_permitted config dport connOk addrs p hp
  · intro i hi hperm
    cases addr with
    | ipAddr j =>
      have hj : j = i := by injection hi
      subst hj
      refine ⟨?_, ?_, rfl⟩
      · simp [Request.connect, hperm]
      · simp [Request.connect, hperm, connect_result_reply]
    | domainName d => exact absurd hi (by simp)

/-- C1 witness: the theorem applied to a forbid-everything policy and
the direct address 10.0.0.1:80. -/
theorem connect_respects_policy_witness :
    Request.connect ⟨.ipAddr (.v4 [10, 0, 0, 1]), 80⟩ ⟨fun _ _ => false⟩ (.ok [])
        (fun _ _ => true) = ([], .ok none) ∧
    connect_result_reply (Request.connect ⟨.ipAddr (.v4 [10, 0, 0, 1]), 80⟩
        ⟨fun _ _ => false⟩ (.ok []) (fun _ _ => true)).2 = some .connectionNotAllowed ∧
    Reply.connectionNotAllowed.as_u8 = 0x02 :=
  (connect_respects_policy ⟨.ipAddr (.v4 [10, 0, 0, 1]), 80⟩ ⟨fun _ _ => false⟩ (.ok [])
      (fun _ _ => true)).2 (.v4 [10, 0, 0, 1]) rfl rfl

/-- C3: for a Domain address, Request::connect defers to the ordered walk
of the resolver's addresses; the connect attempts are exactly one to the
first policy-permitted address (none if there is none); if that single
connect fails the result is the io error (surfaced as NetUnreachable)
without trying the rest; and zero resolved addresses or none permitted
yields Ok(None), surfaced as NotAllowed. -/
theorem domain_first_permitted (config : Config) (dport : Nat)
    (connOk : IpAddr → Nat → Bool) (addrs : List IpAddr) :
    (∀ name, Request.connect ⟨.domainName name, dport⟩ config (.ok addrs) connOk
        = connectDomain config dport connOk addrs) ∧
    ((connectDomain config dport connOk addrs).1
      = (addrs.find? (fun a => config.is_permitted a dport)).elim []
          (fun a => [(a, dport)])) ∧
    (∀ a, addrs.find? (fun a => config.is_permitted a dport) = some a →
      connOk a dport = false →
      (connectDomain config dport connOk addrs).2 = .error () ∧
      connect_result_reply (connectDomain config dport connOk addrs).2
        = some .networkUnreachable) ∧
    ((∀ a ∈ addrs, config.is_permitted a dport = false) →
      (connectDomain config dport connOk addrs).2 = .ok none ∧
      connect_result_reply (connectDomain config dport connOk addrs).2
        = some .connectionNotAllowed) := by
  refine ⟨fun name => rfl, ?_, ?_, ?_⟩
  · induction addrs with
    | nil => simp [connectDomain]
    | cons a rest ih =>
      by_cases hperm : config.is_permitted a dport = true
      · rw [@List.find?_cons_of_pos _ (fun x => config.is_permitted x dport) a rest hperm]
        by_cases hc : connOk a dport = true <;> simp [connectDomain, hperm, hc]
      · rw [@List.find?_cons_of_neg _ (fun x => config.is_permitted x dport) a rest
          (by simp [hperm])]
        simpa [connectDomain, hperm] using ih
  · induction addrs with
    | nil =>
      intro a ha
      simp at ha
    | cons b rest ih =>
      intro a ha hcf
      by_cases hperm : config.is_permitted b dport = true
      · rw [@List.find?_cons_of_pos _ (fun x => config.is_permitted x dport) b rest hperm] at ha
        have hb : b = a := by injection ha
        subst hb
        simp [connectDomain, hperm, hcf, connect_result_reply]
      · rw [@List.find?_cons_of_neg _ (fun x => config.is_permitted x dport) b rest
          (by simp [hperm])] at ha
        have hskip : connectDomain config dport connOk (b :: rest)
            = connectDomain config dport connOk rest := by
          simp [connectDomain, hperm]
        rw [hskip]
        exact ih a ha hcf
  · induction addrs with
    | nil =>
      intro _
      simp [connectDomain, connect_result_reply]
    | cons b rest ih =>
      intro hall
      have hperm : config.is_permitted b dport = false := hall b (by simp)
      have hskip : connectDomain config dport connOk (b :: rest)
          = connectDomain config dport connOk rest := by
        simp [connectDomain, hperm]
      rw [hskip]
      exact ih (fun a ha => hall a (by simp [ha]))

/-- C3 witness: the theorem's NetUnreachable arm applied to a single
permitted address whose connect fails. -/
theorem domain_first_permitted_witness :
    (connectDomain ⟨fun _ _ => true⟩ 80 (fun _ _ => false) [.v4 [192, 0, 2, 5]]).2
      = .error () ∧
    connect_result_reply
        (connectDomain ⟨fun _ _ => true⟩ 80 (fun _ _ => false) [.v4 [192, 0, 2, 5]]).2
      = some .networkUnreachable :=
  (domain_first_permitted ⟨fun _ _ => true⟩ 80 (fun _ _ => false)
      [.v4 [192, 0, 2, 5]]).2.2.1 (.v4 [192, 0, 2, 5]) rfl rfl

/-- The ATYP = 0x03 arm only yields a Domain address when the name bytes
passed Rust's UTF-8 check. -/
lemma readAddress_domain_utf8 (atyp : Nat) (rest name rest1 : List Nat) :
    readAddress atyp rest = .ok (.domainName name) rest1 → utf8Valid name = true := by
  intro h
  unfold readAddress at h
  split_ifs at h with h1 h3 h4 hlen16
  · split at h <;> simp_all
  · split at h
    · split_ifs at h with hlen hvalid
      simp_all
    · simp at h
  all_goals simp at h

/-- C8: read_request only returns a Domain request when the name bytes
are valid UTF-8 (the String::from_utf8 unwrap succeeded), and the unwrap
panic branch is reachable: the frame [05 01 00 03 01 FF 00 50] carries
the non-UTF-8 name byte 0xFF and aborts the worker. -/
theorem read_request_domain_needs_utf8 :
    (∀ input out name dport,
      read_request input = (out, .request ⟨.domainName name, dport⟩) →
      utf8Valid name = true) ∧
    read_request [0x05, 0x01, 0x00, 0x03, 0x01, 0xff, 0x00, 0x50] = ([], .panicked) := by
  constructor
  · intro input out name dport h
    unfold read_request at h
    split at h
    case _ ver cmd rsv atyp rest =>
      split_ifs at h with hv hc
      · simp at h
      · simp at h
      · cases hra : readAddress atyp rest with
        | ioError => rw [hra] at h; simp at h
        | badAddressType => rw [hra] at h; simp at h
        | panicked => rw [hra] at h; simp at h
        | ok addr rest1 =>
          rw [hra] at h
          match rest1, h with
          | p1 :: p2 :: t2, h =>
            simp at h
            obtain ⟨-, haddr, -⟩ := h
            rw [haddr] at hra
            exact readAddress_domain_utf8 atyp rest name (p1 :: p2 :: t2) hra
    case _ => simp at h
  · decide

/-- C8 witness: the theorem applied to a request frame carrying the
one-byte domain name "a". -/
theorem read_request_domain_needs_utf8_witness : utf8Valid [0x61] = true :=
  read_request_domain_needs_utf8.1 [0x05, 0x01, 0x00, 0x03, 0x01, 0x61, 0x00, 0x50]
    [] [0x61] 0x50 (by decide)

/-- Inserting a key absent from the map appends a fresh entry. -/
lemma mapInsert_fresh (k : Nat) (v : Session) :
    ∀ l : List (Nat × Session), k ∉ l.map Prod.fst → mapInsert k v l = l ++ [(k, v)] := by
  intro l
  induction l with
  | nil => intro _; rfl
  | cons hd tl ih =>
    obtain ⟨k0, v0⟩ := hd
    intro hk
    rw [List.map_cons] at hk
    have hne : k0 ≠ k := fun he => hk (by rw [he]; exact List.mem_cons_self _ _)
    have hk2 : k ∉ tl.map Prod.fst := fun hm => hk (List.mem_cons_of_mem _ hm)
    rw [mapInsert, if_neg hne, ih hk2]
    rfl

/-- Keys surviving a removal were keys before. -/
lemma mapRemove_keys_subset (k : Nat) :
    ∀ l : List (Nat × Session), ∀ j ∈ (mapRemove k l).map Prod.fst, j ∈ l.map Prod.fst := by
  intro l
  induction l with
  | nil => intro j hj; simp [mapRemove] at hj
  | cons hd tl ih =>
    obtain ⟨k0, v0⟩ := hd
    intro j hj
    rw [mapRemove] at hj
    by_cases hk : k0 = k
    · rw [if_pos hk] at hj
      rw [List.map_cons]
      exact List.mem_cons_of_mem _ hj
    · rw [if_neg hk, List.map_cons] at hj
      rw [List.map_cons]
      rcases List.mem_cons.mp hj with hj | hj
      · exact List.mem_cons.mpr (Or.inl hj)
      · exact List.mem_cons.mpr (Or.inr (ih j hj))

/-- Removal preserves distinctness of keys. -/
lemma mapRemove_keys_nodup (k : Nat) :
    ∀ l : List (Nat × Session), (l.map Prod.fst).Nodup →
      ((mapRemove k l).map Prod.fst).Nodup := by
  intro l
  induction l with
  | nil => intro _; simp [mapRemove]
  | cons hd tl ih =>
    obtain ⟨k0, v0⟩ := hd
    intro hnd
    rw [List.map_cons, List.nodup_cons] at hnd
    rw [mapRemove]
    by_cases hk : k0 = k
    · rw [if_pos hk]
      exact hnd.2
    · rw [if_neg hk, List.map_cons, List.nodup_cons]
      exact ⟨fun hmem => hnd.1 (mapRemove_keys_subset k tl k0 hmem), ih hnd.2⟩

/-- Removing a present key from a distinct-key map shrinks it by one. -/
lemma mapRemove_length (k : Nat) :
    ∀ l : List (Nat × Session), (l.map Prod.fst).Nodup → k ∈ l.map Prod.fst →
      (mapRemove k l).length + 1 = l.length := by
  intro l
  induction l with
  | nil => intro _ hmem; simp at hmem
  | cons hd tl ih =>
    obtain ⟨k0, v0⟩ := hd
    intro hnd hmem
    rw [List.map_cons, List.nodup_cons] at hnd
    rw [List.map_cons] at hmem
    rw [mapRemove]
    by_cases hk : k0 = k
    · rw [if_pos hk]
      simp
    · rw [if_neg hk]
      rcases List.mem_cons.mp hmem with hmem | hmem
      · exact absurd hmem.symm hk
      · rw [List.length_cons, List.length_cons]
        have := ih hnd.2 hmem
        omega

/-- The in_flight / sessions-map coupling together with the facts that
make it inductive: keys are distinct and below the id allocator. -/
def statsInv (st : Stats) : Prop :=
  st.in_flight = st.sessions.length ∧
  (st.sessions.map Prod.fst).Nodup ∧
  ∀ k ∈ st.sessions.map Prod.fst, k < st.next_request_id

/-- A call sequence is well-matched from `st` when every finish_request
names an id currently in the sessions map (each finish matches a prior
unmatched start). -/
def liveOk (st : Stats) : List StatsOp → Bool
  | [] => true
  | .start src t :: rest => liveOk (st.start_request src t).1 rest
  | .finish id :: rest =>
    decide (id ∈ st.sessions.map Prod.fst) && liveOk (st.finish_request id) rest

set_option maxRecDepth 4096 in
/-- statsInv is preserved by any well-matched call sequence short enough
not to wrap the u64 counters. -/
lemma stats_run_inv : ∀ (ops : List StatsOp) (st : Stats),
    statsInv st → liveOk st ops = true →
    st.next_request_id + ops.length < U64MOD →
    st.sessions.length + ops.length < U64MOD →
    statsInv (st.run ops) := by
  intro ops
  induction ops with
  | nil => intro st hinv _ _ _; exact hinv
  | cons op rest ih =>
    intro st hinv hok hb1 hb2
    obtain ⟨h1, h2, h3⟩ := hinv
    rw [List.length_cons] at hb1 hb2
    cases op with
    | start src t =>
      have hfresh : st.next_request_id ∉ st.sessions.map Prod.fst := fun hmem =>
        lt_irrefl _ (h3 _ hmem)
      have hins := mapInsert_fresh st.next_request_id (Session.new src t) st.sessions hfresh
      have hmod1 : (st.in_flight + 1) % U64MOD = st.sessions.length + 1 := by
        rw [h1]
        exact Nat.mod_eq_of_lt (by omega)
      have hmod2 : (st.next_request_id + 1) % U64MOD = st.next_request_id + 1 :=
        Nat.mod_eq_of_lt (by omega)
      have hok1 : liveOk (st.start_request src t).1 rest = true := hok
      refine ih _ ?_ hok1 ?_ ?_
      · refine ⟨?_, ?_, ?_⟩
        · show (st.in_flight + 1) % U64MOD
            = (mapInsert st.next_request_id (Session.new src t) st.sessions).length
          rw [hins, hmod1]
          simp
        · show ((mapInsert st.next_request_id (Session.new src t) st.sessions).map
            Prod.fst).Nodup
          rw [hins, List.map_append, List.nodup_append]
          refine ⟨h2, List.nodup_singleton _, ?_⟩
          intro x hx hx2
          have hxeq : x = st.next_request_id := by simpa using hx2
          rw [hxeq] at hx
          exact hfresh hx
        · show ∀ k ∈ (mapInsert st.next_request_id (Session.new src t) st.sessions).map
              Prod.fst, k < (st.next_request_id + 1) % U64MOD
          rw [hins, hmod2]
          intro k hk
          rw [List.map_append] at hk
          rcases List.mem_append.mp hk with hk | hk
          · exact Nat.lt_succ_of_lt (h3 k hk)
          · simp at hk
            omega
      · show (st.next_request_id + 1) % U64MOD + rest.length < U64MOD
        rw [hmod2]
        omega
      · show (mapInsert st.next_request_id (Session.new src t) st.sessions).length
            + rest.length < U64MOD
        rw [hins]
        simp
        omega
    | finish id =>
      rw [liveOk, Bool.and_eq_true] at hok
      obtain ⟨hmem, hok1⟩ := hok
      have hmem : id ∈ st.sessions.map Prod.fst := of_decide_eq_true hmem
      have hlen := mapRemove_length id st.sessions h2 hmem
      have hlen1 : 1 ≤ st.sessions.length := by
        cases hseq : st.sessions with
        | nil => rw [hseq] at hmem; simp at hmem
        | cons a b => simp [hseq]
      have hmod : (st.in_flight + (U64MOD - 1)) % U64MOD = st.sessions.length - 1 := by
        rw [h1]
        have hM : 0 < U64MOD := by
          unfold U64MOD
          norm_num
        have heq : st.sessions.length + (U64MOD - 1)
            = (st.sessions.length - 1) + 1 * U64MOD := by omega
        rw [heq, Nat.add_mul_mod_self_right]
        exact Nat.mod_eq_of_lt (by omega)
      have hinv1 : statsInv (st.finish_request id) := by
        unfold statsInv Stats.finish_request
        simp only []
        refine ⟨?_, ?_, ?_⟩
        · rw [hmod]
          omega
        · exact mapRemove_keys_nodup id st.sessions h2
        · intro k hk
          exact h3 k (mapRemove_keys_subset id st.sessions k hk)
      have hb1' : (st.finish_request id).next_request_id + rest.length < U64MOD := by
        simp only [Stats.finish_request]
        omega
      have hb2' : (st.finish_request id).sessions.length + rest.length < U64MOD := by
        simp only [Stats.finish_request]
        omega
      apply ih
      · exact hinv1
      · exact hok1
      · exact hb1'
      · exact hb2'

/-- Well-matchedness is prefix-closed. -/
lemma liveOk_append (l1 l2 : List StatsOp) :
    ∀ st : Stats, liveOk st (l1 ++ l2) = true → liveOk st l1 = true := by
  induction l1 with
  | nil => intro st _; rfl
  | cons op rest ih =>
    intro st h
    cases op with
    | start src t =>
      rw [List.cons_append, liveOk] at h
      rw [liveOk]
      exact ih _ h
    | finish id =>
      rw [List.cons_append, liveOk, Bool.and_eq_true] at h
      rw [liveOk, Bool.and_eq_true]
      exact ⟨h.1, ih _ h.2⟩

/-- C4 (amended): at every quiescent point of a well-matched call
sequence (every finish_request names a currently-live id) that is short
enough not to wrap the u64 counters, in_flight equals the size of the
sessions map. -/
theorem stats_in_flight_matches_sessions (st : Stats) (l1 l2 : List StatsOp)
    (hinv : statsInv st) (hok : liveOk st (l1 ++ l2) = true)
    (hb1 : st.next_request_id + (l1 ++ l2).length < U64MOD)
    (hb2 : st.sessions.length + (l1 ++ l2).length < U64MOD) :
    (st.run l1).in_flight = (st.run l1).sessions.length := by
  have hok1 := liveOk_append l1 l2 st hok
  have hlen : l1.length ≤ (l1 ++ l2).length := by
    rw [List.length_append]
    omega
  exact (stats_run_inv l1 st hinv hok1 (by omega) (by omega)).1

/-- C4 witness: the amended theorem applied to the sequence
[start, finish 1] from the initial state. -/
theorem stats_in_flight_matches_sessions_witness :
    (Stats.new.run [.start (.v4 [127, 0, 0, 1] 40000) 0, .finish 1]).in_flight
      = (Stats.new.run [.start (.v4 [127, 0, 0, 1] 40000) 0, .finish 1]).sessions.length :=
  stats_in_flight_matches_sessions Stats.new
    [.start (.v4 [127, 0, 0, 1] 40000) 0, .finish 1] []
    ⟨rfl, List.nodup_nil, by simp [Stats.new]⟩ (by decide) (by decide) (by decide)

/-- C4 counterexample: finish_request with an id absent from the map
(999) still decrements in_flight, so after [start, finish 999] the
counter is 0 while the map still has one entry. -/
theorem stats_in_flight_counterexample :
    ¬ ((Stats.new.run [.start (.v4 [127, 0, 0, 1] 40000) 0, .finish 999]).in_flight
        = (Stats.new.run [.start (.v4 [127, 0, 0, 1] 40000) 0,
            .finish 999]).sessions.length) := by
  decide
